import Mathlib

/-!
Verification development for the pulsetrack wallet-signal-tracker core.

Shallow embedding of the relevant source modules:
- TransactionFilter (packages/core/src/filters/transaction-filter.js)
- WebSocketBackend key rotation, subscription and reconnect logic
  (packages/core/src/services/websocket-backend.js)
- TokenDataService caches and request de-duplication
  (packages/core/src/services/token-data-service.js)
- CacheManager (packages/core/src/utils/cache-manager.js)
- WalletTracker bounded transaction history (packages/core/src/wallet-tracker.js)

JavaScript numbers that carry amounts are modelled as rationals, timestamps
in milliseconds as naturals (integers where differences may be negative),
JS Map objects with key-dependent lookup as functions into Option, and JS
Set objects as duplicate-free lists in insertion order.
-/

namespace PulseTrack

/-! ## TransactionFilter (transaction-filter.js) -/

/-- One element of transaction.tokenTransfers as built by extractTokenTransfers:
a per-mint change with its UI-unit (decimal-scaled) counterpart. -/
structure TokenTransfer where
  mint : String
  change : ℚ
  uiChange : ℚ
deriving DecidableEq, Repr

/-- One element of transaction.balanceChanges as built by extractBalanceChanges:
a native-unit (lamport) balance delta for one account. -/
structure BalanceChange where
  account : String
  change : ℚ
deriving DecidableEq, Repr

/-- One element of transaction.instructions; the filter only reads programId. -/
structure Instruction where
  programId : String
deriving DecidableEq, Repr

/-- The transaction shape consumed by TransactionFilter. A missing timestamp
field is modelled as none. -/
structure Transaction where
  timestamp : Option ℤ
  tokenTransfers : List TokenTransfer
  balanceChanges : List BalanceChange
  instructions : List Instruction
  accounts : List String
  status : String
deriving DecidableEq, Repr

/-- TransactionFilter options (this.options in the constructor). -/
structure FilterOptions where
  enableFiltering : Bool
  minAmount : ℚ
  maxAge : ℤ
deriving DecidableEq, Repr

/-- TransactionFilter instance state: options plus the two mutable rule sets. -/
structure TransactionFilter where
  options : FilterOptions
  blacklistAddresses : List String
  whitelistPrograms : List String
deriving DecidableEq, Repr

/-- The address blacklist installed by the TransactionFilter constructor. -/
def defaultBlacklist : List String :=
  ["11111111111111111111111111111112",
   "TokenkegQfeZyiNwAJbNbGKPFXCWuBvf9Ss623VQ5DA",
   "ATokenGPvbdGVxr1b2hvZbsiqW5xWH25efTNsLJA8knL"]

/-- The program whitelist installed by the TransactionFilter constructor. -/
def defaultWhitelist : List String :=
  ["9WzDXwBbmkg8ZTbNMqUxvQRAyrZzDsGYdLVL9zYtAWWM",
   "JUP4Fb2cqiRUcaTHdrPC8h2gNsA2ETXiPDD33WcGuJB",
   "whirLbMiicVdio4qvUfM5KAg6Ct8VwpYzGff3uctyCc"]

/-- passesAgeFilter: transactions without a timestamp pass; otherwise the
age now - timestamp must be at most maxAge. -/
def passesAgeFilter (f : TransactionFilter) (now : ℤ) (tx : Transaction) : Bool :=
  match tx.timestamp with
  | none => true
  | some ts => decide (now - ts ≤ f.options.maxAge)

/-- passesAmountFilter: if tokenTransfers is non-empty, some transfer must
have absolute uiChange at least minAmount (balanceChanges are not consulted);
otherwise, if balanceChanges is non-empty, the sum of the absolute changes,
converted from lamports to SOL by dividing by 1e9, must be at least
minAmount; with neither kind of data the transaction passes. -/
def passesAmountFilter (f : TransactionFilter) (tx : Transaction) : Bool :=
  if 0 < tx.tokenTransfers.length then
    tx.tokenTransfers.any (fun t => decide (f.options.minAmount ≤ |t.uiChange|))
  else if 0 < tx.balanceChanges.length then
    let solChange := tx.balanceChanges.foldl (fun total c => total + |c.change|) 0
    decide (f.options.minAmount ≤ solChange / 1000000000)
  else
    true

/-- passesProgramFilter: with no instruction data the transaction passes;
otherwise some instruction must name a whitelisted program. -/
def passesProgramFilter (f : TransactionFilter) (tx : Transaction) : Bool :=
  if tx.instructions.length = 0 then
    true
  else
    tx.instructions.any (fun ins => f.whitelistPrograms.contains ins.programId)

/-- passesAddressFilter: with no account data the transaction passes;
otherwise some participating account must not be blacklisted. -/
def passesAddressFilter (f : TransactionFilter) (tx : Transaction) : Bool :=
  if tx.accounts.length = 0 then
    true
  else
    0 < (tx.accounts.filter (fun a => !f.blacklistAddresses.contains a)).length

/-- passesTypeFilter: only successful transactions pass, and they must carry
token transfers or balance changes. -/
def passesTypeFilter (tx : Transaction) : Bool :=
  if tx.status ≠ "success" then
    false
  else
    decide (0 < tx.tokenTransfers.length) || decide (0 < tx.balanceChanges.length)

/-- shouldInclude: everything passes when filtering is disabled; otherwise
the five predicates are checked in order with an early false return. -/
def shouldInclude (f : TransactionFilter) (now : ℤ) (tx : Transaction) : Bool :=
  if !f.options.enableFiltering then
    true
  else if !passesAgeFilter f now tx then
    false
  else if !passesAmountFilter f tx then
    false
  else if !passesProgramFilter f tx then
    false
  else if !passesAddressFilter f tx then
    false
  else if !passesTypeFilter tx then
    false
  else
    true

/-- The amount predicate exactly as the specification words it (claim C1):
at least one assetDelta with absolute UI-unit change at least minAmount, OR
at least one balanceDelta whose absolute change scaled to display units is
at least minAmount, OR neither delta kind present. Written from the spec
sentence, to be compared against passesAmountFilter. -/
def specPassesAmount (minAmount : ℚ) (tx : Transaction) : Bool :=
  (tx.tokenTransfers.any fun t => decide (minAmount ≤ |t.uiChange|)) ||
  (tx.balanceChanges.any fun b => decide (minAmount ≤ |b.change| / 1000000000)) ||
  (tx.tokenTransfers.isEmpty && tx.balanceChanges.isEmpty)

/-! ## WebSocketBackend API key rotation (websocket-backend.js, getNextApiKey) -/

/-- Rotator-relevant state of WebSocketBackend: the key pool, the two JS Map
objects lastApiKeyUsage and apiKeyFailures (Map.get(i) with a 0 default is
modelled as a total function), and currentApiKeyIndex. -/
structure RotatorState where
  apiKeys : List String
  usage : Nat → Nat
  failures : Nat → Nat
  currentApiKeyIndex : Nat

/-- The skip test inside the getNextApiKey loop: more than 3 recent failures
and last use within the last 60000 ms. -/
def skipKey (failures usage : Nat → Nat) (now i : Nat) : Bool :=
  decide (3 < failures i) && decide (now - usage i < 60000)

/-- One iteration of the getNextApiKey selection loop over the accumulator
(bestKeyIndex, oldestUsage). -/
def selectStep (usage failures : Nat → Nat) (now : Nat) (acc : Nat × Nat) (i : Nat) :
    Nat × Nat :=
  if skipKey failures usage now i then acc
  else if usage i < acc.2 then (i, usage i) else acc

/-- The index computed by the getNextApiKey loop, starting from
bestKeyIndex = 0 and oldestUsage = currentTime. -/
def bestKeyIndex (n : Nat) (usage failures : Nat → Nat) (now : Nat) : Nat :=
  ((List.range n).foldl (selectStep usage failures now) (0, now)).1

/-- getNextApiKey: returns none on an empty pool; otherwise runs the
selection loop, stamps the chosen key with lastUsedAt = now, records it as
current, and returns it. -/
def getNextApiKey (st : RotatorState) (now : Nat) : Option String × RotatorState :=
  if st.apiKeys.length = 0 then (none, st)
  else
    let best := bestKeyIndex st.apiKeys.length st.usage st.failures now
    (st.apiKeys.get? best,
     { st with
        currentApiKeyIndex := best,
        usage := fun j => if j = best then now else st.usage j })

/-- A key index is eligible for the running-minimum update in the selection
loop when it is not skipped and was last used strictly before now. -/
def eligibleKey (usage failures : Nat → Nat) (now i : Nat) : Prop :=
  skipKey failures usage now i = false ∧ usage i < now

instance (usage failures : Nat → Nat) (now i : Nat) :
    Decidable (eligibleKey usage failures now i) := by
  unfold eligibleKey; infer_instance

/-! ## TokenDataService (token-data-service.js) -/

/-- Processed token data as produced by processTokenData; only the fields the
caching layer inspects are carried. -/
structure TokenData where
  symbol : String
  priceUsd : ℚ
  logoURI : Option String
deriving DecidableEq, Repr

/-- A this.cache entry: data plus the Date.now() write stamp. -/
structure CacheEntry where
  data : TokenData
  timestamp : Nat
deriving DecidableEq, Repr

/-- A this.priceCache entry. -/
structure PriceEntry where
  price : ℚ
  timestamp : Nat
deriving DecidableEq, Repr

/-- A this.logoCache entry. -/
structure LogoEntry where
  logoURI : String
  timestamp : Nat
deriving DecidableEq, Repr

/-- TokenDataService state: the three cache tiers, the key set of
pendingRequests, and an instrumentation counter of upstream fetchTokenData
invocations per mint (used to state the de-duplication and retry claims). -/
structure TokenServiceState where
  cacheTimeout : Nat
  cache : String → Option CacheEntry
  priceCache : String → Option PriceEntry
  logoCache : String → Option LogoEntry
  pending : String → Bool
  fetchCount : String → Nat

/-- getCachedToken: a missing entry yields null; an entry older than
cacheTimeout (strictly) is deleted and yields null; otherwise the stored
data is returned. The possibly-updated tier accompanies the result. -/
def getCachedToken (s : TokenServiceState) (now : Nat) (mint : String) :
    Option TokenData × TokenServiceState :=
  match s.cache mint with
  | none => (none, s)
  | some e =>
    if s.cacheTimeout < now - e.timestamp then
      (none, { s with cache := fun k => if k = mint then none else s.cache k })
    else
      (some e.data, s)

/-- getCachedPrice: the price tier expires after a fixed 60000 ms. -/
def getCachedPrice (s : TokenServiceState) (now : Nat) (mint : String) :
    Option ℚ × TokenServiceState :=
  match s.priceCache mint with
  | none => (none, s)
  | some e =>
    if 60000 < now - e.timestamp then
      (none, { s with priceCache := fun k => if k = mint then none else s.priceCache k })
    else
      (some e.price, s)

/-- getCachedLogo: the logo tier expires after a fixed 3600000 ms. -/
def getCachedLogo (s : TokenServiceState) (now : Nat) (mint : String) :
    Option String × TokenServiceState :=
  match s.logoCache mint with
  | none => (none, s)
  | some e =>
    if 3600000 < now - e.timestamp then
      (none, { s with logoCache := fun k => if k = mint then none else s.logoCache k })
    else
      (some e.logoURI, s)

/-- cacheTokenData: writes the full record, always mirrors the price into the
price tier (priceUsd is always defined on processed data), and mirrors the
logo only when present. -/
def cacheTokenData (s : TokenServiceState) (now : Nat) (mint : String) (data : TokenData) :
    TokenServiceState :=
  { s with
      cache := fun k => if k = mint then some { data := data, timestamp := now } else s.cache k,
      priceCache := fun k =>
        if k = mint then some { price := data.priceUsd, timestamp := now } else s.priceCache k,
      logoCache :=
        match data.logoURI with
        | some u => fun k =>
            if k = mint then some { logoURI := u, timestamp := now } else s.logoCache k
        | none => s.logoCache }

/-- getTokenData as one sequential call. The outcome of an in-flight request
that would be awaited is passed as pendingResult; the outcome of a fresh
fetchTokenData call is passed as fetchResult, where none models a rejection
after all retry attempts. The mint test mirrors the falsy check on an empty
string. The fetchCount bump marks the issuing of an upstream fetch. -/
def getTokenData (s : TokenServiceState) (now : Nat) (mint : String)
    (pendingResult fetchResult : Option TokenData) :
    Option TokenData × TokenServiceState :=
  if mint = "" then (none, s)
  else
    match getCachedToken s now mint with
    | (some d, s1) => (some d, s1)
    | (none, s1) =>
      if s1.pending mint then (pendingResult, s1)
      else
        let s2 := { s1 with
          pending := fun k => if k = mint then true else s1.pending k,
          fetchCount := fun k => if k = mint then s1.fetchCount k + 1 else s1.fetchCount k }
        match fetchResult with
        | some d =>
          let s3 := cacheTokenData s2 now mint d
          (some d, { s3 with pending := fun k => if k = mint then false else s3.pending k })
        | none =>
          (none, { s2 with pending := fun k => if k = mint then false else s2.pending k })

/-- The synchronous prefix of getTokenData up to its first await: cache
lookup, pending-request check, and - on a miss with no request in flight -
registration of the request and issuing of the upstream fetch. Calls issued
while a fetch is in flight execute exactly this prefix before suspending on
the shared promise. -/
def startGetTokenData (s : TokenServiceState) (now : Nat) (mint : String) :
    TokenServiceState :=
  if mint = "" then s
  else
    match getCachedToken s now mint with
    | (some _, s1) => s1
    | (none, s1) =>
      if s1.pending mint then s1
      else
        { s1 with
          pending := fun k => if k = mint then true else s1.pending k,
          fetchCount := fun k => if k = mint then s1.fetchCount k + 1 else s1.fetchCount k }

/-- Iterate startGetTokenData over a list of call times for one mint. -/
def startCalls (s : TokenServiceState) (mint : String) : List Nat → TokenServiceState
  | [] => s
  | t :: ts => startCalls (startGetTokenData s t mint) mint ts

/-! ## CacheManager (cache-manager.js) -/

/-- A CacheManager entry: data, absolute expiry time, creation time. -/
structure CMEntry (α : Type) where
  data : α
  expiresAt : Nat
  createdAt : Nat
deriving DecidableEq, Repr

/-- CacheManager state. The backing Map objects are modelled as association
lists in insertion order, since eviction iterates over them. -/
structure CacheManagerState (α : Type) where
  defaultTTL : Nat
  maxSize : Nat
  cache : List (String × CMEntry α)
  accessTimes : List (String × Nat)
deriving DecidableEq, Repr

/-- Map.get on an association list. -/
def listGet {α : Type} (m : List (String × α)) (k : String) : Option α :=
  (m.find? fun kv => kv.1 = k).map (fun kv => kv.2)

/-- Map.set on an association list: replace in place, else append. -/
def listSet {α : Type} (m : List (String × α)) (k : String) (v : α) :
    List (String × α) :=
  if m.any (fun kv => kv.1 = k) then
    m.map (fun kv => if kv.1 = k then (k, v) else kv)
  else
    m ++ [(k, v)]

/-- Map.delete on an association list. -/
def listDelete {α : Type} (m : List (String × α)) (k : String) : List (String × α) :=
  m.filter (fun kv => kv.1 ≠ k)

/-- CacheManager.delete: removes the key from both maps. -/
def cmDelete {α : Type} (s : CacheManagerState α) (k : String) : CacheManagerState α :=
  { s with cache := listDelete s.cache k, accessTimes := listDelete s.accessTimes k }

/-- CacheManager.evictOldest: scan accessTimes in insertion order for the
entry with the strictly oldest access time below now; delete it if found. -/
def evictOldest {α : Type} (s : CacheManagerState α) (now : Nat) : CacheManagerState α :=
  let best := s.accessTimes.foldl
    (fun acc kv => if kv.2 < acc.2 then (some kv.1, kv.2) else acc)
    ((none : Option String), now)
  match best.1 with
  | some k => cmDelete s k
  | none => s

/-- CacheManager.set: evict the oldest-accessed entry when full, then store
the entry with expiresAt = now + ttl and stamp its access time. -/
def cmSet {α : Type} (s : CacheManagerState α) (now : Nat) (k : String) (d : α)
    (ttl : Nat) : CacheManagerState α :=
  let s1 := if s.maxSize ≤ s.cache.length then evictOldest s now else s
  { s1 with
      cache := listSet s1.cache k { data := d, expiresAt := now + ttl, createdAt := now },
      accessTimes := listSet s1.accessTimes k now }

/-- CacheManager.get: a missing key yields null; an entry with
now > expiresAt is deleted and yields null; otherwise the access time is
refreshed and the data returned. -/
def cmGet {α : Type} (s : CacheManagerState α) (now : Nat) (k : String) :
    Option α × CacheManagerState α :=
  match listGet s.cache k with
  | none => (none, s)
  | some e =>
    if e.expiresAt < now then
      (none, cmDelete s k)
    else
      (some e.data, { s with accessTimes := listSet s.accessTimes k now })

/-! ## WalletTracker bounded history (wallet-tracker.js, addTransaction) -/

/-- addTransaction: unshift the new transaction, then slice the list back to
maxTransactions when it exceeds the capacity. -/
def addTransaction {α : Type} (maxTransactions : Nat) (txs : List α) (tx : α) : List α :=
  let l := tx :: txs
  if maxTransactions < l.length then l.take maxTransactions else l

/-- Fold a sequence of arriving transactions into the history. -/
def addAll {α : Type} (maxTransactions : Nat) (txs : List α) (es : List α) : List α :=
  es.foldl (addTransaction maxTransactions) txs

/-! ## WebSocketBackend connection and subscription logic (websocket-backend.js) -/

/-- JS Set.add on an insertion-ordered duplicate-free list. -/
def setInsert (l : List String) (x : String) : List String :=
  if x ∈ l then l else l ++ [x]

/-- The Set spread union used by resubscribeAll:
new Set(subscriptions, then pendingSubscriptions). -/
def setUnion (a b : List String) : List String :=
  b.foldl setInsert a

/-- WebSocketBackend state. The transport is abstracted to two flags:
websocketPresent (this.websocket is non-null) and socketOpen (readyState is
OPEN, which holds from the open event to the close event). sentMessages
records the wallet addresses of subscription messages actually written to
the socket, newest first; emittedEvents records emitted event names, newest
first; reconnectTimer holds the delay of a scheduled reconnect attempt. -/
structure WSState where
  reconnectAttempts : Nat
  reconnectDelay : Nat
  maxReconnectDelay : Nat
  websocketPresent : Bool
  socketOpen : Bool
  isConnected : Bool
  isConnecting : Bool
  reconnectCount : Nat
  subscriptions : List String
  pendingSubscriptions : List String
  reconnectTimer : Option Nat
  heartbeatTimer : Bool
  sentMessages : List String
  emittedEvents : List String

/-- sendMessage: writes only when the socket is present and OPEN. -/
def sendMessage (s : WSState) (w : String) : WSState :=
  if s.websocketPresent && s.socketOpen then
    { s with sentMessages := w :: s.sentMessages }
  else
    s

/-- subscribeToWallet: while not connected the address is queued in
pendingSubscriptions and false is returned; otherwise the subscription
message is sent, the address becomes active and leaves the pending set, and
true is returned. -/
def subscribeToWallet (s : WSState) (w : String) : WSState × Bool :=
  if !s.isConnected then
    ({ s with pendingSubscriptions := setInsert s.pendingSubscriptions w }, false)
  else
    let s1 := sendMessage s w
    ({ s1 with
        subscriptions := setInsert s1.subscriptions w,
        pendingSubscriptions := s1.pendingSubscriptions.erase w }, true)

/-- unsubscribeFromWallet: removes the address from both subscription sets
and returns true; nothing is sent over the socket. -/
def unsubscribeFromWallet (s : WSState) (w : String) : WSState × Bool :=
  ({ s with
      subscriptions := s.subscriptions.erase w,
      pendingSubscriptions := s.pendingSubscriptions.erase w }, true)

/-- resubscribeAll: subscribeToWallet for every member of the union of the
active and pending sets. -/
def resubscribeAll (s : WSState) : WSState :=
  (setUnion s.subscriptions s.pendingSubscriptions).foldl
    (fun st w => (subscribeToWallet st w).1) s

/-- scheduleReconnect: once reconnectCount has reached reconnectAttempts,
only the exhaustion event is emitted; otherwise a retry is scheduled after
min(reconnectDelay * 2 ^ reconnectCount, maxReconnectDelay). -/
def scheduleReconnect (s : WSState) : WSState :=
  if s.reconnectAttempts ≤ s.reconnectCount then
    { s with emittedEvents := "maxReconnectAttemptsReached" :: s.emittedEvents }
  else
    let d := min (s.reconnectDelay * 2 ^ s.reconnectCount) s.maxReconnectDelay
    { s with reconnectTimer := some d }

/-- The reconnect timer firing: the attempt count is incremented and
connect() is started (whose outcome arrives as a later open or close event). -/
def fireReconnectTimer (s : WSState) : WSState :=
  { s with reconnectTimer := none, reconnectCount := s.reconnectCount + 1 }

/-- handleOpen: the open event marks the socket OPEN, records the connected
state, resets the attempt count, emits connected, arms the heartbeat and
replays all subscriptions. -/
def handleOpen (s : WSState) : WSState :=
  let s1 := { s with
    socketOpen := true,
    isConnected := true,
    isConnecting := false,
    reconnectCount := 0,
    emittedEvents := "connected" :: s.emittedEvents,
    heartbeatTimer := true }
  resubscribeAll s1

/-- handleClose: the close event clears the connection flags and heartbeat,
emits disconnected, and schedules a reconnect unless the close code is the
normal close code 1000. -/
def handleClose (s : WSState) (code : Nat) : WSState :=
  let s1 := { s with
    socketOpen := false,
    isConnected := false,
    isConnecting := false,
    heartbeatTimer := false,
    emittedEvents := "disconnected" :: s.emittedEvents }
  if code ≠ 1000 then scheduleReconnect s1 else s1

/-- The events driving the subscription state: the owner adding or removing
a tracked subject, and the connection opening or closing. -/
inductive WSOp where
  | add (w : String)
  | remove (w : String)
  | openEvent
  | closeEvent (code : Nat)
  | timerFire
deriving DecidableEq, Repr

/-- Apply one event to the backend state. -/
def applyOp (s : WSState) : WSOp → WSState
  | .add w => (subscribeToWallet s w).1
  | .remove w => (unsubscribeFromWallet s w).1
  | .openEvent => handleOpen s
  | .closeEvent code => handleClose s code
  | .timerFire => fireReconnectTimer s

/-- Apply a sequence of events. -/
def applyOps (s : WSState) (ops : List WSOp) : WSState :=
  ops.foldl applyOp s

/-- How one event updates the tracked-subjects set: adds insert, removes
erase, connection events leave it alone. -/
def trackedStep (acc : List String) : WSOp → List String
  | .add w => setInsert acc w
  | .remove w => acc.erase w
  | _ => acc

/-- The tracked-subjects set determined by the add and remove calls alone:
added subjects minus subsequently removed ones, as a duplicate-free list. -/
def tracked (ops : List WSOp) : List String :=
  ops.foldl trackedStep []

/-- The subscription-set invariant relating a backend state to a reference
subject set: both local sets are duplicate-free and their union has exactly
the members of the reference set. -/
def SubInv (s : WSState) (acc : List String) : Prop :=
  s.subscriptions.Nodup ∧ s.pendingSubscriptions.Nodup ∧ acc.Nodup ∧
  ∀ y, (y ∈ s.subscriptions ∨ y ∈ s.pendingSubscriptions) ↔ y ∈ acc

/-- The WebSocketBackend constructor state: disconnected, no subscriptions,
no timers, nothing sent or emitted. Backoff options are parameters. -/
def initWSState (attempts delay maxDelay : Nat) : WSState :=
  { reconnectAttempts := attempts
    reconnectDelay := delay
    maxReconnectDelay := maxDelay
    websocketPresent := true
    socketOpen := false
    isConnected := false
    isConnecting := false
    reconnectCount := 0
    subscriptions := []
    pendingSubscriptions := []
    reconnectTimer := none
    heartbeatTimer := false
    sentMessages := []
    emittedEvents := [] }

/-! ## Concrete instances used by counterexamples and witnesses -/

/-- A filter with filtering enabled and minAmount 1. -/
def fC1 : TransactionFilter :=
  { options := { enableFiltering := true, minAmount := 1, maxAge := 86400000 },
    blacklistAddresses := defaultBlacklist, whitelistPrograms := defaultWhitelist }

/-- A transaction with one zero-valued token transfer and one 2 SOL balance
change. -/
def txC1 : Transaction :=
  { timestamp := none,
    tokenTransfers := [{ mint := "m", change := 0, uiChange := 0 }],
    balanceChanges := [{ account := "a", change := 2000000000 }],
    instructions := [], accounts := [], status := "success" }

/-- A filter with filtering disabled. -/
def fOff : TransactionFilter :=
  { options := { enableFiltering := false, minAmount := 1, maxAge := 86400000 },
    blacklistAddresses := defaultBlacklist, whitelistPrograms := defaultWhitelist }

/-- A failed transaction carrying a balance change. -/
def txFail : Transaction :=
  { timestamp := none, tokenTransfers := [],
    balanceChanges := [{ account := "a", change := 1 }],
    instructions := [], accounts := [], status := "failed" }

/-- A rotator pool of two keys, both with 5 recent failures, key 1 less
recently used than key 0. -/
def stC2 : RotatorState :=
  { apiKeys := ["a", "b"],
    usage := fun i => if i = 0 then 2000 else 1000,
    failures := fun _ => 5,
    currentApiKeyIndex := 0 }

/-- A rotator pool of two keys with no failures, key 1 less recently used. -/
def stC2w : RotatorState :=
  { apiKeys := ["a", "b"],
    usage := fun i => if i = 0 then 500 else 100,
    failures := fun _ => 0,
    currentApiKeyIndex := 0 }

/-- An empty CacheManager over String data. -/
def cm0 : CacheManagerState String :=
  { defaultTTL := 300000, maxSize := 1000, cache := [], accessTimes := [] }

/-- Concrete token data. -/
def d0 : TokenData := { symbol := "S", priceUsd := 1, logoURI := some "u" }

/-- A token service whose full-record tier holds an expired entry for mint m
(written at 0, timeout 300000, observed at 400000). -/
def sExp : TokenServiceState :=
  { cacheTimeout := 300000,
    cache := fun k => if k = "m" then some { data := d0, timestamp := 0 } else none,
    priceCache := fun _ => none,
    logoCache := fun _ => none,
    pending := fun _ => false,
    fetchCount := fun _ => 0 }

/-- An empty token service. -/
def sEmpty : TokenServiceState :=
  { cacheTimeout := 300000,
    cache := fun _ => none,
    priceCache := fun _ => none,
    logoCache := fun _ => none,
    pending := fun _ => false,
    fetchCount := fun _ => 0 }

/-- A token service holding fresh entries for mint m in all three tiers,
written at time 1000. -/
def sFresh : TokenServiceState :=
  { cacheTimeout := 300000,
    cache := fun k => if k = "m" then some { data := d0, timestamp := 1000 } else none,
    priceCache := fun k => if k = "m" then some { price := 1, timestamp := 1000 } else none,
    logoCache := fun k => if k = "m" then some { logoURI := "u", timestamp := 1000 } else none,
    pending := fun _ => false,
    fetchCount := fun _ => 0 }

/-! # Helper lemmas -/

/-- Folding absolute balance changes equals the sum of their absolute values. -/
theorem foldl_abs_add (l : List BalanceChange) (q : ℚ) :
    l.foldl (fun total c => total + |c.change|) q = q + (l.map fun c => |c.change|).sum := by
  induction l generalizing q with
  | nil => simp
  | cons c l ih => simp [ih, add_assoc]

/-! # Claim C1 -/

/-- Claim C1 as stated is false: on a transaction whose only token transfer
has zero UI change but whose balance change is 2 SOL against minAmount 1,
the claimed amount predicate (some assetDelta big enough OR some
balanceDelta big enough OR no data) holds, yet passesAmountFilter rejects,
because a non-empty tokenTransfers list makes the filter ignore
balanceChanges entirely. -/
theorem C1_counterexample :
    specPassesAmount 1 txC1 = true ∧ passesAmountFilter fC1 txC1 = false := by
  constructor
  · simp only [specPassesAmount, txC1]
    norm_num
  · decide

/-- Claim C1 amended: the amount predicate passes iff, when assetDeltas are
present, some assetDelta has absolute UI-unit change at least minAmount
(balanceDeltas are then ignored); when assetDeltas are absent and
balanceDeltas present, the sum of the absolute balanceDelta changes scaled
to display units is at least minAmount; with neither delta kind it passes. -/
theorem C1_amended (f : TransactionFilter) (tx : Transaction) :
    passesAmountFilter f tx = true ↔
      (if tx.tokenTransfers ≠ [] then
        ∃ t ∈ tx.tokenTransfers, f.options.minAmount ≤ |t.uiChange|
      else if tx.balanceChanges ≠ [] then
        f.options.minAmount ≤ ((tx.balanceChanges.map fun b => |b.change|).sum) / 1000000000
      else True) := by
  unfold passesAmountFilter
  rcases ht : tx.tokenTransfers with _ | ⟨t0, ts⟩
  · rcases hb : tx.balanceChanges with _ | ⟨b0, bs⟩
    · simp
    · simp [foldl_abs_add]
  · simp [List.any_eq_true]

/-! # Claim C4 -/

/-- Claim C4 as stated is false: with filtering disabled, shouldInclude
returns true even for a transaction whose status is not success. -/
theorem C4_counterexample :
    shouldInclude fOff 0 txFail = true ∧ txFail.status ≠ "success" := by
  constructor
  · decide
  · decide

/-- Claim C4 amended: provided filtering is enabled, every transaction whose
status is not success is rejected by shouldInclude, regardless of its
amounts, instruction program ids, or participant addresses. -/
theorem C4_amended (f : TransactionFilter) (now : ℤ) (tx : Transaction)
    (hf : f.options.enableFiltering = true) (hs : tx.status ≠ "success") :
    shouldInclude f now tx = false := by
  have ht : passesTypeFilter tx = false := by
    unfold passesTypeFilter
    rw [if_pos hs]
  unfold shouldInclude
  rw [hf]
  cases hage : passesAgeFilter f now tx <;>
    cases hamt : passesAmountFilter f tx <;>
      cases hpr : passesProgramFilter f tx <;>
        cases had : passesAddressFilter f tx <;>
          simp [hage, hamt, hpr, had, ht]

/-- Witness for C4_amended at the concrete enabled filter and failed
transaction. -/
theorem C4_amended_witness :
    fC1.options.enableFiltering = true ∧ txFail.status ≠ "success" ∧
      shouldInclude fC1 0 txFail = false :=
  ⟨rfl, by decide, C4_amended fC1 0 txFail rfl (by decide)⟩

/-! # Claim C2 -/

/-- Characterization of the getNextApiKey selection loop: either no index is
eligible and the accumulator is untouched, or the loop returns the first
eligible index of minimal last usage. -/
theorem selectFold_spec (usage failures : Nat → Nat) (now n : Nat) :
    ((∀ i < n, ¬ eligibleKey usage failures now i) ∧
      (List.range n).foldl (selectStep usage failures now) (0, now) = (0, now)) ∨
    (∃ b < n, eligibleKey usage failures now b ∧
      (List.range n).foldl (selectStep usage failures now) (0, now) = (b, usage b) ∧
      (∀ j < n, eligibleKey usage failures now j → usage b ≤ usage j) ∧
      (∀ j < b, eligibleKey usage failures now j → usage b < usage j)) := by
  induction n with
  | zero =>
    left
    exact ⟨fun i hi => absurd hi (Nat.not_lt_zero i), rfl⟩
  | succ n ih =>
    rw [List.range_succ, List.foldl_append, List.foldl_cons, List.foldl_nil]
    rcases ih with ⟨hall, heq⟩ | ⟨b, hbn, helig, heq, hmin, hstrict⟩
    · rw [heq]
      by_cases hsk : skipKey failures usage now n = true
      · left
        refine ⟨?_, by simp [selectStep, hsk]⟩
        intro i hi
        rcases Nat.lt_succ_iff_lt_or_eq.mp hi with h | rfl
        · exact hall i h
        · intro he
          rw [he.1] at hsk
          exact Bool.false_ne_true hsk
      · rw [Bool.not_eq_true] at hsk
        by_cases hu : usage n < now
        · right
          refine ⟨n, Nat.lt_succ_self n, ⟨hsk, hu⟩, by simp [selectStep, hsk, hu], ?_, ?_⟩
          · intro j hj he
            rcases Nat.lt_succ_iff_lt_or_eq.mp hj with h | rfl
            · exact absurd he (hall j h)
            · exact le_refl _
          · intro j hj he
            exact absurd he (hall j hj)
        · left
          refine ⟨?_, by simp [selectStep, hsk, hu]⟩
          intro i hi
          rcases Nat.lt_succ_iff_lt_or_eq.mp hi with h | rfl
          · exact hall i h
          · intro he
            exact hu he.2
    · rw [heq]
      have hbu : usage b < now := helig.2
      by_cases hsk : skipKey failures usage now n = true
      · right
        refine ⟨b, Nat.lt_succ_of_lt hbn, helig, by simp [selectStep, hsk], ?_, hstrict⟩
        intro j hj he
        rcases Nat.lt_succ_iff_lt_or_eq.mp hj with h | rfl
        · exact hmin j h he
        · rw [he.1] at hsk
          exact absurd hsk Bool.false_ne_true
      · rw [Bool.not_eq_true] at hsk
        by_cases hu : usage n < usage b
        · right
          refine ⟨n, Nat.lt_succ_self n, ⟨hsk, hu.trans hbu⟩,
            by simp [selectStep, hsk, hu], ?_, ?_⟩
          · intro j hj he
            rcases Nat.lt_succ_iff_lt_or_eq.mp hj with h | rfl
            · exact le_of_lt (lt_of_lt_of_le hu (hmin j h he))
            · exact le_refl _
          · intro j hj he
            exact lt_of_lt_of_le hu (hmin j hj he)
        · right
          refine ⟨b, Nat.lt_succ_of_lt hbn, helig, by simp [selectStep, hsk, hu], ?_, hstrict⟩
          intro j hj he
          rcases Nat.lt_succ_iff_lt_or_eq.mp hj with h | rfl
          · exact hmin j h he
          · exact Nat.le_of_not_lt hu

/-- Claim C2 as stated is false: in a pool of two keys where both are in
cooldown (5 failures each, last used 2000 and 1000 at time 50000), the
claimed fallback is the least-recently-used key, index 1, but getNextApiKey
returns index 0 because the loop accumulator is never updated when every
key is skipped. -/
theorem C2_counterexample :
    (∀ i < stC2.apiKeys.length, skipKey stC2.failures stC2.usage 50000 i = true) ∧
    stC2.usage 1 < stC2.usage 0 ∧
    (getNextApiKey stC2 50000).2.currentApiKeyIndex = 0 :=
  ⟨by decide, by decide, by decide⟩

/-- Claim C2 amended: getNextApiKey selects the least-recently-used key
among those not in cooldown and last used strictly before now, breaking
ties towards the smallest index; when no key qualifies (in particular when
every key is in cooldown) it falls back to index 0 regardless of that key
being in cooldown or recently used. -/
theorem C2_amended (st : RotatorState) (now : Nat) (h : st.apiKeys.length ≠ 0) :
    ((∀ i < st.apiKeys.length, ¬ eligibleKey st.usage st.failures now i) →
        (getNextApiKey st now).2.currentApiKeyIndex = 0) ∧
    ((∃ i < st.apiKeys.length, eligibleKey st.usage st.failures now i) →
        (getNextApiKey st now).2.currentApiKeyIndex < st.apiKeys.length ∧
        eligibleKey st.usage st.failures now
          ((getNextApiKey st now).2.currentApiKeyIndex) ∧
        (∀ j < st.apiKeys.length, eligibleKey st.usage st.failures now j →
            st.usage ((getNextApiKey st now).2.currentApiKeyIndex) ≤ st.usage j) ∧
        (∀ j < (getNextApiKey st now).2.currentApiKeyIndex,
            eligibleKey st.usage st.failures now j →
            st.usage ((getNextApiKey st now).2.currentApiKeyIndex) < st.usage j)) := by
  have hidx : (getNextApiKey st now).2.currentApiKeyIndex
      = bestKeyIndex st.apiKeys.length st.usage st.failures now := by
    unfold getNextApiKey
    rw [if_neg h]
  rw [hidx]
  unfold bestKeyIndex
  rcases selectFold_spec st.usage st.failures now st.apiKeys.length with
    ⟨hall, heq⟩ | ⟨b, hbn, helig, heq, hmin, hstrict⟩
  · rw [heq]
    exact ⟨fun _ => rfl, fun ⟨i, hi, he⟩ => absurd he (hall i hi)⟩
  · rw [heq]
    exact ⟨fun hall => absurd helig (hall b hbn), fun _ => ⟨hbn, helig, hmin, hstrict⟩⟩

/-- Witness for C2_amended on a pool with both keys eligible: the chosen key
is eligible and of minimal last usage. -/
theorem C2_amended_witness :
    eligibleKey stC2w.usage stC2w.failures 1000
      ((getNextApiKey stC2w 1000).2.currentApiKeyIndex) ∧
    ∀ j < stC2w.apiKeys.length, eligibleKey stC2w.usage stC2w.failures 1000 j →
      stC2w.usage ((getNextApiKey stC2w 1000).2.currentApiKeyIndex) ≤ stC2w.usage j := by
  have h := (C2_amended stC2w 1000 (by decide)).2 ⟨1, by decide, by decide⟩
  exact ⟨h.2.1, h.2.2.1⟩

/-! # Claim C3 -/

/-- Looking up a key written by Map.set returns the written value. -/
theorem listGet_listSet_self {α : Type} (m : List (String × α)) (k : String) (v : α) :
    listGet (listSet m k v) k = some v := by
  induction m with
  | nil => simp [listGet, listSet]
  | cons kv m ih =>
    by_cases hkv : kv.1 = k
    · simp [listGet, listSet, hkv]
    · rcases ham : m.any (fun kv => decide (kv.1 = k)) with _ | _
      · have htot : ((kv :: m).any fun kv => decide (kv.1 = k)) = false := by
          simp [List.any_cons, hkv, ham]
        unfold listSet at ih ⊢
        rw [ham] at ih
        rw [htot]
        simp only [Bool.false_eq_true, if_false] at ih ⊢
        unfold listGet at ih ⊢
        rw [List.cons_append, List.find?_cons_of_neg _ (by simp [hkv])]
        exact ih
      · have htot : ((kv :: m).any fun kv => decide (kv.1 = k)) = true := by
          simp [List.any_cons, ham]
        unfold listSet at ih ⊢
        rw [ham] at ih
        rw [htot]
        simp only [if_true] at ih ⊢
        unfold listGet at ih ⊢
        rw [List.map_cons, if_neg hkv, List.find?_cons_of_neg _ (by simp [hkv])]
        exact ih

/-- Claim C3 as stated is false at the TTL boundary: a CacheManager entry
inserted at time 0 with TTL 100 is still returned at elapsed time exactly
100, and a full-record tier entry written at 1000 with timeout 300000 is
still returned at elapsed time exactly 300000, while the claim demands
absence for every elapsed time at or above the TTL. -/
theorem C3_counterexample :
    (cmGet (cmSet cm0 0 "k" "v" 100) 100 "k").1 = some "v" ∧
    (getCachedToken sFresh (1000 + 300000) "m").1 = some d0 :=
  ⟨by decide, by decide⟩

/-- Claim C3 amended: an entry inserted with TTL T is returned unchanged at
elapsed time t for t at most T and treated as absent for t strictly above
T; this holds for the full-record, price and logo tiers of the enrichment
cache and for CacheManager.get. -/
theorem C3_amended (s : TokenServiceState) (cm : CacheManagerState String)
    (mint k : String) (d : String) (e : CacheEntry) (p : PriceEntry) (l : LogoEntry)
    (t t0 ttl : Nat) :
    (s.cache mint = some e →
      (getCachedToken s (e.timestamp + t) mint).1
        = if t ≤ s.cacheTimeout then some e.data else none) ∧
    (s.priceCache mint = some p →
      (getCachedPrice s (p.timestamp + t) mint).1
        = if t ≤ 60000 then some p.price else none) ∧
    (s.logoCache mint = some l →
      (getCachedLogo s (l.timestamp + t) mint).1
        = if t ≤ 3600000 then some l.logoURI else none) ∧
    ((cmGet (cmSet cm t0 k d ttl) (t0 + t) k).1 = if t ≤ ttl then some d else none) :=
  by
  refine ⟨?_, ?_, ?_, ?_⟩
  · intro hc
    unfold getCachedToken
    rw [hc]
    simp only [Nat.add_sub_cancel_left]
    by_cases hle : t ≤ s.cacheTimeout
    · rw [if_neg (Nat.not_lt.mpr hle), if_pos hle]
    · rw [if_pos (Nat.not_le.mp hle), if_neg hle]
  · intro hc
    unfold getCachedPrice
    rw [hc]
    simp only [Nat.add_sub_cancel_left]
    by_cases hle : t ≤ 60000
    · rw [if_neg (Nat.not_lt.mpr hle), if_pos hle]
    · rw [if_pos (Nat.not_le.mp hle), if_neg hle]
  · intro hc
    unfold getCachedLogo
    rw [hc]
    simp only [Nat.add_sub_cancel_left]
    by_cases hle : t ≤ 3600000
    · rw [if_neg (Nat.not_lt.mpr hle), if_pos hle]
    · rw [if_pos (Nat.not_le.mp hle), if_neg hle]
  · by_cases hle : t ≤ ttl
    · rw [if_pos hle]
      unfold cmGet cmSet
      rw [listGet_listSet_self]
      simp [Nat.not_lt.mpr (Nat.add_le_add_left hle t0)]
    · rw [if_neg hle]
      unfold cmGet cmSet
      rw [listGet_listSet_self]
      simp [Nat.add_lt_add_left (Nat.not_le.mp hle) t0]

/-- Witness for C3_amended at elapsed time 70000: inside the full-record and
logo TTLs, past the price TTL and a 100 ms CacheManager TTL. -/
theorem C3_amended_witness :
    (getCachedToken sFresh (1000 + 70000) "m").1 = some d0 ∧
    (getCachedPrice sFresh (1000 + 70000) "m").1 = none ∧
    (getCachedLogo sFresh (1000 + 70000) "m").1 = some "u" ∧
    (cmGet (cmSet cm0 0 "k" "v" 100) (0 + 70000) "k").1 = none := by
  have h := C3_amended sFresh cm0 "m" "k" "v"
    { data := d0, timestamp := 1000 } { price := 1, timestamp := 1000 }
    { logoURI := "u", timestamp := 1000 } 70000 0 100
  refine ⟨?_, ?_, ?_, ?_⟩
  · have := h.1 (by simp [sFresh])
    rw [this, if_pos (by decide)]
  · have := h.2.1 (by simp [sFresh])
    rw [this, if_neg (by decide)]
  · have := h.2.2.1 (by simp [sFresh])
    rw [this, if_pos (by decide)]
  · have := h.2.2.2
    rw [this, if_neg (by decide)]

/-! # Claims C8 and C9 -/

/-- When the full-record lookup misses, its returned state differs from the
input state at most by the eviction of the expired entry for that mint:
the mint slot is empty and every other component is untouched. -/
theorem getCachedToken_miss (s : TokenServiceState) (now : Nat) (mint : String)
    (h3 : (getCachedToken s now mint).1 = none) :
    getCachedToken s now mint = (none, (getCachedToken s now mint).2) ∧
    (getCachedToken s now mint).2.cache mint = none ∧
    (getCachedToken s now mint).2.priceCache = s.priceCache ∧
    (getCachedToken s now mint).2.logoCache = s.logoCache ∧
    (getCachedToken s now mint).2.pending = s.pending ∧
    (getCachedToken s now mint).2.fetchCount = s.fetchCount ∧
    (getCachedToken s now mint).2.cacheTimeout = s.cacheTimeout := by
  rcases hc : s.cache mint with _ | e
  · have heq : getCachedToken s now mint = (none, s) := by
      unfold getCachedToken
      rw [hc]
    rw [heq]
    exact ⟨rfl, hc, rfl, rfl, rfl, rfl, rfl⟩
  · have hexp : s.cacheTimeout < now - e.timestamp := by
      by_contra hnx
      unfold getCachedToken at h3
      rw [hc] at h3
      simp [hnx] at h3
    have heq : getCachedToken s now mint
        = (none, { s with cache := fun k => if k = mint then none else s.cache k }) := by
      unfold getCachedToken
      rw [hc]
      dsimp only
      rw [if_pos hexp]
    rw [heq]
    exact ⟨rfl, by simp, rfl, rfl, rfl, rfl, rfl⟩

/-- A getTokenData call that misses the cache, finds no request in flight
and whose fetch fails returns null, adds nothing to any tier, restores the
pending set and counts exactly one upstream fetch. The state is given
relative to the post-lookup state s1. -/
theorem getTokenData_fail_eq (s s1 : TokenServiceState) (now : Nat) (mint : String)
    (h1 : mint ≠ "") (heq : getCachedToken s now mint = (none, s1))
    (h2 : s1.pending mint = false) :
    (getTokenData s now mint none none).1 = none ∧
    (getTokenData s now mint none none).2.cache = s1.cache ∧
    (getTokenData s now mint none none).2.priceCache = s1.priceCache ∧
    (getTokenData s now mint none none).2.logoCache = s1.logoCache ∧
    (getTokenData s now mint none none).2.pending = s1.pending ∧
    (getTokenData s now mint none none).2.fetchCount mint = s1.fetchCount mint + 1 ∧
    (getTokenData s now mint none none).2.cacheTimeout = s1.cacheTimeout := by
  have hred : getTokenData s now mint none none
      = (none,
         { s1 with
            pending := fun k => if k = mint then false
              else if k = mint then true else s1.pending k,
            fetchCount := fun k => if k = mint then s1.fetchCount k + 1
              else s1.fetchCount k }) := by
    unfold getTokenData
    rw [if_neg h1, heq]
    dsimp only
    rw [h2]
    rfl
  rw [hred]
  refine ⟨rfl, rfl, rfl, rfl, ?_, by simp, rfl⟩
  funext k
  by_cases hk : k = mint
  · subst hk
    simp [h2]
  · simp [hk]

/-- Claim C8 as stated is false on a service holding an expired full-record
entry for the mint: the failing call returns null, but the full-record tier
changes, because the lookup evicts the expired entry. -/
theorem C8_counterexample :
    (getTokenData sExp 400000 "m" none none).1 = none ∧
    (getTokenData sExp 400000 "m" none none).2.cache "m" ≠ sExp.cache "m" :=
  ⟨by decide, by decide⟩

/-- Claim C8 amended: when the upstream fetch for an uncached assetId fails
on all retry attempts, getTokenData returns null and stores nothing: the
price and logo tiers are untouched, the full-record tier equals the state
left by the cache lookup (so at most the already-expired entry for that
assetId has been evicted, and its slot is empty), the pending set is
restored, exactly one upstream fetch was issued, and a subsequent call for
the same assetId issues a new upstream fetch. -/
theorem C8_amended (s : TokenServiceState) (now now2 : Nat) (mint : String)
    (h1 : mint ≠ "") (h2 : s.pending mint = false)
    (h3 : (getCachedToken s now mint).1 = none) :
    (getTokenData s now mint none none).1 = none ∧
    (getTokenData s now mint none none).2.priceCache = s.priceCache ∧
    (getTokenData s now mint none none).2.logoCache = s.logoCache ∧
    (getTokenData s now mint none none).2.cache = (getCachedToken s now mint).2.cache ∧
    (getTokenData s now mint none none).2.cache mint = none ∧
    (getTokenData s now mint none none).2.pending = s.pending ∧
    (getTokenData s now mint none none).2.fetchCount mint = s.fetchCount mint + 1 ∧
    (getTokenData (getTokenData s now mint none none).2 now2 mint none none).2.fetchCount mint
      = s.fetchCount mint + 2 := by
  obtain ⟨heq, hcm, hpc, hlc, hpd, hfc, hct⟩ := getCachedToken_miss s now mint h3
  have h2b : (getCachedToken s now mint).2.pending mint = false := by
    rw [hpd]; exact h2
  obtain ⟨g1, g2, g3, g4, g5, g6, g7⟩ :=
    getTokenData_fail_eq s (getCachedToken s now mint).2 now mint h1 heq h2b
  have hr2c : (getTokenData s now mint none none).2.cache mint = none := by
    rw [g2]; exact hcm
  have hr2p : (getTokenData s now mint none none).2.pending mint = false := by
    rw [g5]; exact h2b
  have heq2 : getCachedToken (getTokenData s now mint none none).2 now2 mint
      = (none, (getTokenData s now mint none none).2) := by
    unfold getCachedToken
    rw [hr2c]
  obtain ⟨k1, k2, k3, k4, k5, k6, k7⟩ :=
    getTokenData_fail_eq (getTokenData s now mint none none).2
      (getTokenData s now mint none none).2 now2 mint h1 heq2 hr2p
  refine ⟨g1, ?_, ?_, g2, hr2c, ?_, ?_, ?_⟩
  · rw [g3]; exact hpc
  · rw [g4]; exact hlc
  · rw [g5]; exact hpd
  · rw [g6, hfc]
  · rw [k6, g6, hfc]

/-- Witness for C8_amended on the empty service at mint m. -/
theorem C8_amended_witness :
    (getTokenData sEmpty 0 "m" none none).1 = none ∧
    (getTokenData sEmpty 0 "m" none none).2.priceCache = sEmpty.priceCache ∧
    (getTokenData sEmpty 0 "m" none none).2.logoCache = sEmpty.logoCache ∧
    (getTokenData sEmpty 0 "m" none none).2.cache = (getCachedToken sEmpty 0 "m").2.cache ∧
    (getTokenData sEmpty 0 "m" none none).2.cache "m" = none ∧
    (getTokenData sEmpty 0 "m" none none).2.pending = sEmpty.pending ∧
    (getTokenData sEmpty 0 "m" none none).2.fetchCount "m" = sEmpty.fetchCount "m" + 1 ∧
    (getTokenData (getTokenData sEmpty 0 "m" none none).2 7 "m" none none).2.fetchCount "m"
      = sEmpty.fetchCount "m" + 2 :=
  C8_amended sEmpty 0 7 "m" (by decide) rfl rfl

/-- A call arriving while a fetch for the mint is in flight (and the mint
slot of the full-record tier is empty) attaches to the pending request and
leaves the service state untouched. -/
theorem startGet_inflight (s : TokenServiceState) (now : Nat) (mint : String)
    (hp : s.pending mint = true) (hc : s.cache mint = none) :
    startGetTokenData s now mint = s := by
  by_cases hm : mint = ""
  · unfold startGetTokenData
    rw [if_pos hm]
  · have heq : getCachedToken s now mint = (none, s) := by
      unfold getCachedToken
      rw [hc]
    unfold startGetTokenData
    rw [if_neg hm, heq]
    dsimp only
    rw [hp]
    rfl

/-- The first call on a cold mint registers the request and issues the one
upstream fetch. -/
theorem startGet_first (s : TokenServiceState) (now : Nat) (mint : String)
    (h1 : mint ≠ "") (h2 : s.pending mint = false)
    (h3 : (getCachedToken s now mint).1 = none) :
    (startGetTokenData s now mint).pending mint = true ∧
    (startGetTokenData s now mint).cache mint = none ∧
    (startGetTokenData s now mint).fetchCount mint = s.fetchCount mint + 1 := by
  obtain ⟨heq, hcm, _, _, hpd, hfc, _⟩ := getCachedToken_miss s now mint h3
  have h2b : (getCachedToken s now mint).2.pending mint = false := by
    rw [hpd]; exact h2
  have hred : startGetTokenData s now mint
      = { (getCachedToken s now mint).2 with
            pending := fun k => if k = mint then true
              else (getCachedToken s now mint).2.pending k,
            fetchCount := fun k => if k = mint then (getCachedToken s now mint).2.fetchCount k + 1
              else (getCachedToken s now mint).2.fetchCount k } := by
    unfold startGetTokenData
    rw [if_neg h1, heq]
    dsimp only
    rw [h2b]
    rfl
  rw [hred]
  refine ⟨by simp, hcm, by simp [hfc]⟩

/-- Claim C9: all getTokenData calls issued for one assetId before any
response arrives share the in-flight request: the first call issues exactly
one upstream fetch, and every later call leaves the service state
completely unchanged, so the total number of upstream fetches for that
assetId over the whole burst is exactly one. -/
theorem C9_dedup (s : TokenServiceState) (mint : String) (t0 : Nat) (ts : List Nat)
    (h1 : mint ≠ "") (h2 : s.pending mint = false)
    (h3 : (getCachedToken s t0 mint).1 = none) :
    startCalls s mint (t0 :: ts) = startGetTokenData s t0 mint ∧
    (startCalls s mint (t0 :: ts)).fetchCount mint = s.fetchCount mint + 1 := by
  obtain ⟨hp1, hc1, hf1⟩ := startGet_first s t0 mint h1 h2 h3
  have steady : ∀ (ts2 : List Nat) (s2 : TokenServiceState),
      s2.pending mint = true → s2.cache mint = none → startCalls s2 mint ts2 = s2 := by
    intro ts2
    induction ts2 with
    | nil => intro s2 _ _; rfl
    | cons t ts2 ih =>
      intro s2 hp hc
      unfold startCalls
      rw [startGet_inflight s2 t mint hp hc]
      exact ih s2 hp hc
  have hstep : startCalls s mint (t0 :: ts) = startCalls (startGetTokenData s t0 mint) mint ts := rfl
  rw [hstep, steady ts _ hp1 hc1]
  exact ⟨rfl, hf1⟩

/-- Witness for C9_dedup: three calls on the empty service issue one fetch. -/
theorem C9_dedup_witness :
    startCalls sEmpty "m" [0, 1, 2] = startGetTokenData sEmpty 0 "m" ∧
    (startCalls sEmpty "m" [0, 1, 2]).fetchCount "m" = sEmpty.fetchCount "m" + 1 :=
  C9_dedup sEmpty "m" 0 [1, 2] (by decide) rfl rfl

/-! # Claim C6 -/

/-- One insertion always equals unshift followed by truncation to capacity. -/
theorem addTransaction_eq {α : Type} (N : Nat) (txs : List α) (tx : α) :
    addTransaction N txs tx = (tx :: txs).take N := by
  unfold addTransaction
  by_cases h : N < (tx :: txs).length
  · rw [if_pos h]
  · rw [if_neg h, List.take_of_length_le (Nat.le_of_not_lt h)]

/-- Truncating an appended suffix before appending is absorbed by the outer
truncation. -/
theorem take_append_take {α : Type} (N : Nat) (a b : List α) :
    (a ++ b.take N).take N = (a ++ b).take N := by
  rw [List.take_append_eq_append_take, List.take_append_eq_append_take,
    List.take_take, Nat.min_eq_left (Nat.sub_le N a.length)]

/-- Folding arrivals into the history yields the reversed arrivals, truncated
to capacity. -/
theorem addAll_eq {α : Type} (N : Nat) :
    ∀ (es txs : List α), txs.length ≤ N →
      addAll N txs es = (es.reverse ++ txs).take N := by
  intro es
  induction es with
  | nil =>
    intro txs h
    simp [addAll, List.take_of_length_le h]
  | cons e es ih =>
    intro txs h
    have hstep : addAll N txs (e :: es) = addAll N (addTransaction N txs e) es := rfl
    rw [hstep, addTransaction_eq]
    have h2 : ((e :: txs).take N).length ≤ N := by
      rw [List.length_take]
      exact Nat.min_le_left _ _
    rw [ih _ h2, take_append_take, List.reverse_cons, List.append_assoc,
      List.singleton_append]

/-- Claim C6: for every arrival sequence the bounded history never exceeds
the capacity N, and after N+1 distinct arrivals into an empty history the
oldest is absent while the newest N remain most-recent-first. -/
theorem C6_bounded_history {α : Type} (N : Nat) (es : List α) :
    (addAll N [] es).length ≤ N ∧
    (es.length = N + 1 → es.Nodup →
      addAll N [] es = (es.drop 1).reverse ∧
      ∀ e, es.head? = some e → e ∉ addAll N [] es) := by
  have hall : addAll N [] es = es.reverse.take N := by
    have := addAll_eq N es [] (Nat.zero_le N)
    simpa using this
  constructor
  · rw [hall, List.length_take]
    exact Nat.min_le_left _ _
  · intro hlen hnd
    rcases es with _ | ⟨e0, rest⟩
    · simp at hlen
    · have hrl : rest.length = N := by simpa using hlen
      have hrev : (e0 :: rest).reverse.take N = rest.reverse := by
        rw [List.reverse_cons, List.take_append_eq_append_take,
          List.take_of_length_le (by rw [List.length_reverse, hrl]),
          List.length_reverse, hrl, Nat.sub_self]
        simp
      constructor
      · rw [hall, hrev]
        simp
      · intro e he
        have he0 : e = e0 := by
          simp at he
          exact he.symm
        subst he0
        rw [hall, hrev, List.mem_reverse]
        exact (List.nodup_cons.mp hnd).1

/-- Witness for C6_bounded_history with capacity 2 and three arrivals. -/
theorem C6_bounded_history_witness :
    (addAll 2 [] ["a", "b", "c"]).length ≤ 2 ∧
    addAll 2 [] ["a", "b", "c"] = ["c", "b"] ∧
    "a" ∉ addAll 2 [] ["a", "b", "c"] := by
  have h := C6_bounded_history 2 ["a", "b", "c"]
  have h2 := h.2 (by decide) (by decide)
  refine ⟨h.1, ?_, h2.2 "a" (by decide)⟩
  rw [h2.1]
  rfl

/-! # Claims C7 and C10 -/

/-- subscribeToWallet does not touch the transport, the connection flags or
the reconnect bookkeeping. -/
theorem subscribeToWallet_frame (s : WSState) (w : String) :
    (subscribeToWallet s w).1.websocketPresent = s.websocketPresent ∧
    (subscribeToWallet s w).1.socketOpen = s.socketOpen ∧
    (subscribeToWallet s w).1.isConnected = s.isConnected ∧
    (subscribeToWallet s w).1.isConnecting = s.isConnecting ∧
    (subscribeToWallet s w).1.reconnectCount = s.reconnectCount ∧
    (subscribeToWallet s w).1.reconnectTimer = s.reconnectTimer ∧
    (subscribeToWallet s w).1.heartbeatTimer = s.heartbeatTimer ∧
    (subscribeToWallet s w).1.emittedEvents = s.emittedEvents ∧
    (subscribeToWallet s w).1.reconnectAttempts = s.reconnectAttempts ∧
    (subscribeToWallet s w).1.reconnectDelay = s.reconnectDelay ∧
    (subscribeToWallet s w).1.maxReconnectDelay = s.maxReconnectDelay := by
  unfold subscribeToWallet sendMessage
  by_cases h : s.isConnected
  · simp only [h, Bool.not_true, Bool.false_eq_true, if_false]
    by_cases h2 : s.websocketPresent && s.socketOpen
    · simp [h2, h]
    · simp [h2, h]
  · simp [h]

/-- The resubscription fold preserves the transport, connection and
reconnect fields. -/
theorem resubscribeFold_frame :
    ∀ (l : List String) (s : WSState),
      ((l.foldl (fun st w => (subscribeToWallet st w).1) s).websocketPresent
          = s.websocketPresent) ∧
      ((l.foldl (fun st w => (subscribeToWallet st w).1) s).socketOpen = s.socketOpen) ∧
      ((l.foldl (fun st w => (subscribeToWallet st w).1) s).isConnected = s.isConnected) ∧
      ((l.foldl (fun st w => (subscribeToWallet st w).1) s).reconnectCount
          = s.reconnectCount) ∧
      ((l.foldl (fun st w => (subscribeToWallet st w).1) s).reconnectTimer
          = s.reconnectTimer) := by
  intro l
  induction l with
  | nil => intro s; exact ⟨rfl, rfl, rfl, rfl, rfl⟩
  | cons w l ih =>
    intro s
    have hf := subscribeToWallet_frame s w
    have hi := ih (subscribeToWallet s w).1
    rw [List.foldl_cons]
    exact ⟨hi.1.trans hf.1, hi.2.1.trans hf.2.1, hi.2.2.1.trans hf.2.2.1,
      hi.2.2.2.1.trans hf.2.2.2.2.1, hi.2.2.2.2.trans hf.2.2.2.2.2.1⟩

/-- Claim C7: an unexpected closure while attempts remain schedules a retry
after min(baseDelay * 2 ^ attempt, maxDelay) without emitting exhaustion; a
closure with attempts exhausted schedules nothing and emits the exhaustion
event; a firing retry timer increments the attempt count; the attempt count
resets to 0 on the open transition; a normal closure schedules nothing. -/
theorem C7_reconnect_backoff (s : WSState) (code : Nat) :
    (code ≠ 1000 → s.reconnectCount < s.reconnectAttempts →
      (handleClose s code).reconnectTimer
        = some (min (s.reconnectDelay * 2 ^ s.reconnectCount) s.maxReconnectDelay) ∧
      (handleClose s code).reconnectCount = s.reconnectCount ∧
      (handleClose s code).emittedEvents = "disconnected" :: s.emittedEvents) ∧
    (code ≠ 1000 → s.reconnectAttempts ≤ s.reconnectCount →
      (handleClose s code).reconnectTimer = s.reconnectTimer ∧
      (handleClose s code).emittedEvents
        = "maxReconnectAttemptsReached" :: "disconnected" :: s.emittedEvents) ∧
    ((fireReconnectTimer s).reconnectCount = s.reconnectCount + 1) ∧
    ((handleOpen s).reconnectCount = 0) ∧
    ((handleClose s 1000).reconnectTimer = s.reconnectTimer ∧
      (handleClose s 1000).emittedEvents = "disconnected" :: s.emittedEvents) := by
  refine ⟨?_, ?_, rfl, ?_, ?_⟩
  · intro hc hlt
    unfold handleClose scheduleReconnect
    rw [if_pos hc, if_neg (Nat.not_le.mpr hlt)]
    exact ⟨rfl, rfl, rfl⟩
  · intro hc hle
    unfold handleClose scheduleReconnect
    rw [if_pos hc, if_pos hle]
    exact ⟨rfl, rfl⟩
  · unfold handleOpen
    exact (resubscribeFold_frame _ _).2.2.2.1
  · unfold handleClose
    rw [if_neg (by simp)]
    exact ⟨rfl, rfl⟩

/-- Witness for C7_reconnect_backoff on the initial state with base delay
1000 and a close code 1006. -/
theorem C7_reconnect_backoff_witness :
    (handleClose (initWSState 5 1000 30000) 1006).reconnectTimer
      = some (min (1000 * 2 ^ 0) 30000) ∧
    (fireReconnectTimer (initWSState 5 1000 30000)).reconnectCount
      = (initWSState 5 1000 30000).reconnectCount + 1 ∧
    (handleOpen (initWSState 5 1000 30000)).reconnectCount = 0 := by
  have h := C7_reconnect_backoff (initWSState 5 1000 30000) 1006
  exact ⟨(h.1 (by decide) (by decide)).1, h.2.2.1, h.2.2.2.1⟩

/-- Claim C10: unsubscribeFromWallet returns true, removes the address from
the active and pending sets, sends nothing over the socket, and leaves the
transport, flags, timers, message log, event log and options unchanged. -/
theorem C10_unsubscribe_frame (s : WSState) (w : String) :
    (unsubscribeFromWallet s w).2 = true ∧
    (unsubscribeFromWallet s w).1.subscriptions = s.subscriptions.erase w ∧
    (unsubscribeFromWallet s w).1.pendingSubscriptions = s.pendingSubscriptions.erase w ∧
    (unsubscribeFromWallet s w).1.sentMessages = s.sentMessages ∧
    (unsubscribeFromWallet s w).1.websocketPresent = s.websocketPresent ∧
    (unsubscribeFromWallet s w).1.socketOpen = s.socketOpen ∧
    (unsubscribeFromWallet s w).1.isConnected = s.isConnected ∧
    (unsubscribeFromWallet s w).1.isConnecting = s.isConnecting ∧
    (unsubscribeFromWallet s w).1.reconnectCount = s.reconnectCount ∧
    (unsubscribeFromWallet s w).1.reconnectTimer = s.reconnectTimer ∧
    (unsubscribeFromWallet s w).1.heartbeatTimer = s.heartbeatTimer ∧
    (unsubscribeFromWallet s w).1.emittedEvents = s.emittedEvents ∧
    (unsubscribeFromWallet s w).1.reconnectAttempts = s.reconnectAttempts ∧
    (unsubscribeFromWallet s w).1.reconnectDelay = s.reconnectDelay ∧
    (unsubscribeFromWallet s w).1.maxReconnectDelay = s.maxReconnectDelay :=
  ⟨rfl, rfl, rfl, rfl, rfl, rfl, rfl, rfl, rfl, rfl, rfl, rfl, rfl, rfl, rfl⟩

/-! # Claim C5 -/

/-- Membership in a Set.add image. -/
theorem mem_setInsert (l : List String) (x y : String) :
    y ∈ setInsert l x ↔ y = x ∨ y ∈ l := by
  unfold setInsert
  by_cases h : x ∈ l
  · rw [if_pos h]
    constructor
    · exact Or.inr
    · rintro (rfl | hy)
      · exact h
      · exact hy
  · rw [if_neg h]
    simp [or_comm]

/-- Set.add preserves freedom from duplicates. -/
theorem nodup_setInsert (l : List String) (x : String) (h : l.Nodup) :
    (setInsert l x).Nodup := by
  unfold setInsert
  by_cases hx : x ∈ l
  · rw [if_pos hx]
    exact h
  · rw [if_neg hx, List.nodup_append]
    refine ⟨h, List.nodup_singleton x, ?_⟩
    intro a ha hb
    rw [List.mem_singleton] at hb
    subst hb
    exact hx ha

/-- Membership in the spread union of two sets. -/
theorem mem_setUnion : ∀ (b a : List String) (y : String),
    y ∈ setUnion a b ↔ y ∈ a ∨ y ∈ b := by
  intro b
  induction b with
  | nil => intro a y; simp [setUnion]
  | cons x b ih =>
    intro a y
    unfold setUnion at ih ⊢
    rw [List.foldl_cons, ih, mem_setInsert, List.mem_cons]
    tauto

/-- sendMessage only touches the message log. -/
theorem sendMessage_frame (s : WSState) (w : String) :
    (sendMessage s w).subscriptions = s.subscriptions ∧
    (sendMessage s w).pendingSubscriptions = s.pendingSubscriptions := by
  unfold sendMessage
  by_cases h : s.websocketPresent && s.socketOpen
  · simp [h]
  · simp [h]

/-- addSubject preserves the subscription invariant against inserting into
the reference set. -/
theorem subInv_add (s : WSState) (acc : List String) (w : String) (h : SubInv s acc) :
    SubInv (subscribeToWallet s w).1 (setInsert acc w) := by
  obtain ⟨hs, hp, ha, hm⟩ := h
  unfold subscribeToWallet
  by_cases hc : s.isConnected
  · simp only [hc, Bool.not_true, Bool.false_eq_true, if_false]
    obtain ⟨hms, hmp⟩ := sendMessage_frame s w
    refine ⟨?_, ?_, nodup_setInsert acc w ha, ?_⟩
    · rw [hms] at *
      exact nodup_setInsert _ w hs
    · rw [hmp] at *
      exact hp.erase w
    · intro y
      rw [hms, hmp, mem_setInsert, mem_setInsert]
      by_cases hy : y = w
      · simp [hy]
      · rw [List.mem_erase_of_ne hy]
        have := hm y
        tauto
  · simp only [hc, Bool.not_false, if_true]
    refine ⟨hs, nodup_setInsert _ w hp, nodup_setInsert acc w ha, ?_⟩
    intro y
    rw [mem_setInsert, mem_setInsert]
    have := hm y
    tauto

/-- removeSubject preserves the subscription invariant against erasing from
the reference set. -/
theorem subInv_remove (s : WSState) (acc : List String) (w : String) (h : SubInv s acc) :
    SubInv (unsubscribeFromWallet s w).1 (acc.erase w) := by
  obtain ⟨hs, hp, ha, hm⟩ := h
  refine ⟨hs.erase w, hp.erase w, ha.erase w, ?_⟩
  intro y
  by_cases hy : y = w
  · subst hy
    simp only [unsubscribeFromWallet]
    constructor
    · rintro (hin | hin)
      · exact absurd ((hs.mem_erase_iff).mp hin).1 (by simp)
      · exact absurd ((hp.mem_erase_iff).mp hin).1 (by simp)
    · intro hin
      exact absurd ((ha.mem_erase_iff).mp hin).1 (by simp)
  · simp only [unsubscribeFromWallet]
    rw [List.mem_erase_of_ne hy, List.mem_erase_of_ne hy, List.mem_erase_of_ne hy]
    exact hm y

/-- A resubscription step for a subject already in the reference set keeps
the invariant with the same reference set. -/
theorem subInv_resub_step (s : WSState) (acc : List String) (w : String)
    (hw : w ∈ acc) (h : SubInv s acc) : SubInv (subscribeToWallet s w).1 acc := by
  have h2 := subInv_add s acc w h
  unfold setInsert at h2
  rw [if_pos hw] at h2
  exact h2

/-- The resubscription fold keeps the invariant when every folded subject is
in the reference set. -/
theorem subInv_fold : ∀ (l : List String) (s : WSState) (acc : List String),
    (∀ w ∈ l, w ∈ acc) → SubInv s acc →
    SubInv (l.foldl (fun st w => (subscribeToWallet st w).1) s) acc := by
  intro l
  induction l with
  | nil => intro s acc _ h; exact h
  | cons w l ih =>
    intro s acc hw h
    rw [List.foldl_cons]
    exact ih _ acc (fun v hv => hw v (List.mem_cons_of_mem w hv))
      (subInv_resub_step s acc w (hw w (List.mem_cons_self w l)) h)

/-- handleClose leaves the subscription sets alone in every branch. -/
theorem handleClose_subs (s : WSState) (code : Nat) :
    (handleClose s code).subscriptions = s.subscriptions ∧
    (handleClose s code).pendingSubscriptions = s.pendingSubscriptions := by
  unfold handleClose scheduleReconnect
  dsimp only
  constructor <;> (split <;> first | rfl | (split <;> rfl))

/-- The open transition preserves the subscription invariant. -/
theorem subInv_open (s : WSState) (acc : List String) (h : SubInv s acc) :
    SubInv (handleOpen s) acc := by
  unfold handleOpen resubscribeAll
  apply subInv_fold
  · intro w hw
    rw [mem_setUnion] at hw
    exact (h.2.2.2 w).mp hw
  · exact ⟨h.1, h.2.1, h.2.2.1, h.2.2.2⟩

/-- Every event preserves the subscription invariant against the tracked-set
step. -/
theorem subInv_applyOp (s : WSState) (acc : List String) (op : WSOp)
    (h : SubInv s acc) : SubInv (applyOp s op) (trackedStep acc op) := by
  cases op with
  | add w => exact subInv_add s acc w h
  | remove w => exact subInv_remove s acc w h
  | openEvent => exact subInv_open s acc h
  | closeEvent code =>
    obtain ⟨h1, h2, h3, h4⟩ := h
    obtain ⟨hc1, hc2⟩ := handleClose_subs s code
    refine ⟨?_, ?_, h3, ?_⟩
    · show (handleClose s code).subscriptions.Nodup
      rw [hc1]
      exact h1
    · show (handleClose s code).pendingSubscriptions.Nodup
      rw [hc2]
      exact h2
    · intro y
      show y ∈ (handleClose s code).subscriptions ∨
          y ∈ (handleClose s code).pendingSubscriptions ↔ y ∈ acc
      rw [hc1, hc2]
      exact h4 y
  | timerFire => exact ⟨h.1, h.2.1, h.2.2.1, h.2.2.2⟩

/-- Every event sequence preserves the subscription invariant. -/
theorem subInv_applyOps : ∀ (ops : List WSOp) (s : WSState) (acc : List String),
    SubInv s acc → SubInv (applyOps s ops) (ops.foldl trackedStep acc) := by
  intro ops
  induction ops with
  | nil => intro s acc h; exact h
  | cons op ops ih =>
    intro s acc h
    exact ih (applyOp s op) (trackedStep acc op) (subInv_applyOp s acc op h)

/-- No event changes websocket presence. -/
theorem applyOps_websocketPresent : ∀ (ops : List WSOp) (s : WSState),
    (applyOps s ops).websocketPresent = s.websocketPresent := by
  intro ops
  induction ops with
  | nil => intro s; rfl
  | cons op ops ih =>
    intro s
    have hop : (applyOp s op).websocketPresent = s.websocketPresent := by
      cases op with
      | add w => exact (subscribeToWallet_frame s w).1
      | remove w => rfl
      | openEvent =>
        show (handleOpen s).websocketPresent = s.websocketPresent
        unfold handleOpen resubscribeAll
        exact (resubscribeFold_frame _ _).1
      | closeEvent code =>
        show (handleClose s code).websocketPresent = s.websocketPresent
        unfold handleClose scheduleReconnect
        dsimp only
        split
        · split <;> rfl
        · rfl
      | timerFire => rfl
    exact (ih (applyOp s op)).trans hop

/-- While connected over an open socket, the resubscription fold sends one
subscription message per folded subject. -/
theorem foldSubscribe_sent : ∀ (l : List String) (s : WSState),
    s.isConnected = true → s.websocketPresent = true → s.socketOpen = true →
    (l.foldl (fun st w => (subscribeToWallet st w).1) s).sentMessages
      = l.reverse ++ s.sentMessages := by
  intro l
  induction l with
  | nil => intro s _ _ _; simp
  | cons w l ih =>
    intro s hc hwp hso
    rw [List.foldl_cons]
    have hf := subscribeToWallet_frame s w
    have hsent : (subscribeToWallet s w).1.sentMessages = w :: s.sentMessages := by
      unfold subscribeToWallet sendMessage
      simp [hc, hwp, hso]
    rw [ih _ (hf.2.2.1.trans hc) (hf.1.trans hwp) (hf.2.1.trans hso), hsent,
      List.reverse_cons, List.append_assoc, List.singleton_append]

/-- Claim C5: after any sequence of subject additions and removals and
connection events from the initial state, the union of the active and
pending subscription sets has exactly the tracked subjects as members, and
the open transition resubscribes exactly that union: the subscription
messages it sends are the union, in iteration order, prepended to the
message log. -/
theorem C5_resubscription (attempts delay maxDelay : Nat) (ops : List WSOp) (x : String) :
    ((x ∈ (applyOps (initWSState attempts delay maxDelay) ops).subscriptions ∨
        x ∈ (applyOps (initWSState attempts delay maxDelay) ops).pendingSubscriptions) ↔
      x ∈ tracked ops) ∧
    (x ∈ setUnion (applyOps (initWSState attempts delay maxDelay) ops).subscriptions
        (applyOps (initWSState attempts delay maxDelay) ops).pendingSubscriptions ↔
      x ∈ tracked ops) ∧
    (handleOpen (applyOps (initWSState attempts delay maxDelay) ops)).sentMessages
      = (setUnion (applyOps (initWSState attempts delay maxDelay) ops).subscriptions
            (applyOps (initWSState attempts delay maxDelay) ops).pendingSubscriptions).reverse
        ++ (applyOps (initWSState attempts delay maxDelay) ops).sentMessages := by
  have hinit : SubInv (initWSState attempts delay maxDelay) [] :=
    ⟨List.nodup_nil, List.nodup_nil, List.nodup_nil, by simp [initWSState]⟩
  have hinv := subInv_applyOps ops (initWSState attempts delay maxDelay) [] hinit
  have hmem := hinv.2.2.2 x
  refine ⟨hmem, ?_, ?_⟩
  · rw [mem_setUnion]
    exact hmem
  · have hwp : (applyOps (initWSState attempts delay maxDelay) ops).websocketPresent = true :=
      applyOps_websocketPresent ops (initWSState attempts delay maxDelay)
    unfold handleOpen resubscribeAll
    exact foldSubscribe_sent _ _ rfl hwp rfl

end PulseTrack
